import Mathlib

/-!
Verification of the in-memory voxel storage core of `bevycraft`.

Shallow embedding conventions:
* machine integers (`u32`, `u64`, `usize`, `isize`) are modelled as `Nat`
  (or `Int` for signed arithmetic) with explicit `% 2 ^ w` wherever the
  Rust operation can wrap;
* the byte buffer owned by `PackedArrayU32` is modelled as a single `Nat`
  interpreted as a little-endian bit stream: the byte at address `k` holds
  bits `[8*k, 8*k+8)` of the number, exactly the layout addressed by the
  unaligned little-endian `u64` loads and stores in the source;
* debug assertions (`debug_assert!`) are expressed as `_checked` variants
  returning `Option` (`none` = the assertion fires), while the plain
  functions carry the release-build semantics;
* `todo!()` (a guaranteed panic) is modelled as `none`.
-/

set_option maxHeartbeats 4000000

namespace Bevycraft

/-! ## `bevycraft_core/src/memory/packed_array_u32.rs` -/

/-- `mask(len) = (1u64 << len) - 1` (used with `len ≤ 32`, so no wrap). -/
def mask (len : Nat) : Nat := 2 ^ len - 1

/-- `required_bits(value) = 32 - value.leading_zeros()`. -/
def required_bits (value : Nat) : Nat := Nat.log2 value + 1

/-- `alloc_size(size, bits) = (size * bits).div_ceil(8)`. -/
def alloc_size (size bits : Nat) : Nat := (size * bits + 7) / 8

/-- `PackedArrayU32::read_bits_from_buffer`: reads an unaligned `u64` at byte
`bit_index >> 3`, shifts by `bit_index & 7`, masks `n_bits` bits, returns it
as `u32`. -/
def read_bits_from_buffer (buffer bit_index n_bits : Nat) : Nat :=
  let row := (buffer >>> (8 * (bit_index >>> 3))) % 2 ^ 64
  let row := row >>> (bit_index &&& 7)
  let row := row &&& mask n_bits
  row % 2 ^ 32

/-- `PackedArrayU32::write_bits_to_buffer`: loads the unaligned `u64` at byte
`bit_index >> 3`, clears the `n_bits`-wide field at `bit_index & 7`, ORs in
`bits` (a `u32`, hence the `% 2 ^ 32`) shifted there, and stores the word
back (the last line replaces bits `[8k, 8k+64)` of the buffer). -/
def write_bits_to_buffer (buffer bit_index n_bits bits : Nat) : Nat :=
  let k := bit_index >>> 3
  let row := (buffer >>> (8 * k)) % 2 ^ 64
  let shift := bit_index &&& 7
  let row := row &&& ((2 ^ 64 - 1) ^^^ ((mask n_bits <<< shift) % 2 ^ 64))
  let row := (row ||| (((bits % 2 ^ 32) <<< shift) % 2 ^ 64)) % 2 ^ 64
  (buffer % 2 ^ (8 * k)) ||| ((row <<< (8 * k)) ||| ((buffer >>> (8 * k + 64)) <<< (8 * k + 64)))

/-- `PackedArrayU32 { buffer, layout, bits, size }`; the buffer is the bit
stream (zero-filled on allocation), `layout` is omitted (it only records the
byte count for the allocator and is observable through no claimed API). -/
structure PackedArrayU32 where
  buffer : Nat
  bits : Nat
  size : Nat
deriving DecidableEq, Repr

/-- `PackedArrayU32::new(size)`: zero-filled, 1-bit width (`INITIAL_BITS`). -/
def PackedArrayU32.new (size : Nat) : PackedArrayU32 := ⟨0, 1, size⟩

/-- `PackedArrayU32::zeroed()`: dangling buffer (modelled as the zero
stream), 1-bit width, zero size. -/
def PackedArrayU32.zeroed : PackedArrayU32 := ⟨0, 1, 0⟩

/-- `PackedArrayU32::with_bit_length(size, bits)`. -/
def PackedArrayU32.with_bit_length (size bits : Nat) : PackedArrayU32 := ⟨0, bits, size⟩

/-- `PackedArrayU32::bit_length()`. -/
def PackedArrayU32.bit_length (a : PackedArrayU32) : Nat := a.bits

/-- `PackedArrayU32::len()`. -/
def PackedArrayU32.len (a : PackedArrayU32) : Nat := a.size

/-- `PackedArrayU32::is_empty()`. -/
def PackedArrayU32.is_empty (a : PackedArrayU32) : Bool := a.size == 0

/-- `PackedArrayU32::get` / `get_unchecked`: element `index` lives at bit
offset `bit_length * index`. -/
def PackedArrayU32.get (a : PackedArrayU32) (index : Nat) : Nat :=
  read_bits_from_buffer a.buffer (a.bit_length * index) a.bit_length

/-- `PackedArrayU32::set` / `set_unchecked` (release semantics). -/
def PackedArrayU32.set (a : PackedArrayU32) (index value : Nat) : PackedArrayU32 :=
  { a with buffer := write_bits_to_buffer a.buffer (a.bit_length * index) a.bit_length value }

/-- `PackedArrayU32::set` in a debug build: the only `debug_assert!` checks
`index < self.size`; there is no check on `value`. -/
def PackedArrayU32.set_checked (a : PackedArrayU32) (index value : Nat) :
    Option PackedArrayU32 :=
  if index < a.size then some (a.set index value) else none

/-- `PackedArrayU32::get` in a debug build (`debug_assert!(index < self.size)`). -/
def PackedArrayU32.get_checked (a : PackedArrayU32) (index : Nat) : Option Nat :=
  if index < a.size then some (a.get index) else none

/-- The repacking loop of `PackedArrayU32::resize_bits`: element `j` is read
from the old buffer at bit `j * old_bits` and written into the (zeroed) new
buffer at bit `j * new_bits`, in increasing order of `j`. -/
def resize_copy (buffer old_bits new_bits : Nat) : Nat → Nat
  | 0 => 0
  | j + 1 =>
    write_bits_to_buffer (resize_copy buffer old_bits new_bits j)
      (j * new_bits) new_bits (read_bits_from_buffer buffer (j * old_bits) old_bits)

/-- `PackedArrayU32::resize_bits(resize_factor)`:
`new_bits = max(old_bits as isize + resize_factor, 0) as usize`; if the array
is sized, every element is repacked into a fresh zeroed buffer. The two
`debug_assert!`s (`new_bits ≤ 32`, `new_bits ≠ 0`) appear as hypotheses of
the theorems below. -/
def PackedArrayU32.resize_bits (a : PackedArrayU32) (resize_factor : Int) : PackedArrayU32 :=
  let new_bits := (max ((a.bit_length : Int) + resize_factor) 0).toNat
  if 0 < a.size then
    { a with buffer := resize_copy a.buffer a.bit_length new_bits a.size, bits := new_bits }
  else
    { a with bits := new_bits }

/-- `PackedArrayU32::grow_bits_by_powf2()`: calls
`resize_bits(1isize << self.bit_length())`, i.e. the resize factor is
`2 ^ bit_length` (exact for `bit_length ≤ 62`, and the width never exceeds
32 by the structure's own contract). -/
def PackedArrayU32.grow_bits_by_powf2 (a : PackedArrayU32) : PackedArrayU32 :=
  a.resize_bits ((2 : Int) ^ a.bit_length)

/-- `PackedArrayU32::grow_bits_by(amount)` (`amount as isize`, non-negative
for any `amount < 2^63`). -/
def PackedArrayU32.grow_bits_by (a : PackedArrayU32) (amount : Nat) : PackedArrayU32 :=
  a.resize_bits (amount : Int)

/-- `PackedArrayU32::allocate(size)` (release semantics): stores a fresh
zero-filled buffer and layout.  Note: the source never assigns
`self.size = size`; this model reproduces that faithfully, so `size` is
unused and the element count stays whatever it was (0, by the
`debug_assert!(self.size == 0)` contract). -/
def PackedArrayU32.allocate (a : PackedArrayU32) (size : Nat) : PackedArrayU32 :=
  { a with buffer := 0 }

/-- `PackedArrayU32::allocate` in a debug build
(`debug_assert!(self.size == 0)`). -/
def PackedArrayU32.allocate_checked (a : PackedArrayU32) (size : Nat) :
    Option PackedArrayU32 :=
  if a.size == 0 then some (a.allocate size) else none

/-- `PackedArrayU32::deallocate()` (release semantics): buffer dangles and
`size` becomes 0. -/
def PackedArrayU32.deallocate (a : PackedArrayU32) : PackedArrayU32 :=
  { a with buffer := 0, size := 0 }

/-- `PackedArrayU32::deallocate` in a debug build
(`debug_assert!(self.size > 0)`). -/
def PackedArrayU32.deallocate_checked (a : PackedArrayU32) : Option PackedArrayU32 :=
  if 0 < a.size then some a.deallocate else none

/-! ## `bevycraft_world/src/morton/morton_3d.rs` -/

/-- `Morton3D::split_bits` (u64 arithmetic; each left shift is reduced
`% 2 ^ 64` exactly as `u64` wrapping does). -/
def split_bits (n : Nat) : Nat :=
  let x := n &&& 0x1fffff
  let x := (x ||| ((x <<< 32) % 2 ^ 64)) &&& 0x1f00000000ffff
  let x := (x ||| ((x <<< 16) % 2 ^ 64)) &&& 0x1f0000ff0000ff
  let x := (x ||| ((x <<< 8) % 2 ^ 64)) &&& 0x100f00f00f00f00f
  let x := (x ||| ((x <<< 4) % 2 ^ 64)) &&& 0x10c30c30c30c30c3
  (x ||| ((x <<< 2) % 2 ^ 64)) &&& 0x1249249249249249

/-- `Morton3D::join_bits` (u64 arithmetic; right shifts and XOR never wrap). -/
def join_bits (n : Nat) : Nat :=
  let x := n &&& 0x1249249249249249
  let x := (x ^^^ (x >>> 2)) &&& 0x10c30c30c30c30c3
  let x := (x ^^^ (x >>> 4)) &&& 0x100f00f00f00f00f
  let x := (x ^^^ (x >>> 8)) &&& 0x1f0000ff0000ff
  let x := (x ^^^ (x >>> 16)) &&& 0x1f00000000ffff
  (x ^^^ (x >>> 32)) &&& 0x1fffff

/-- `Morton3D::get_morton_index(index) = (raw >> (index * 3)) & 0x7`. -/
def get_morton_index (raw index : Nat) : Nat := (raw >>> (index * 3)) &&& 0x7

/-- `impl MortonEncodable for UVec3` (components are `u32`). -/
def encode_uvec3 (p : Nat × Nat × Nat) : Nat :=
  split_bits p.1 ||| ((split_bits p.2.1 <<< 1) % 2 ^ 64) ||| ((split_bits p.2.2 <<< 2) % 2 ^ 64)

/-- `impl MortonDecodable for UVec3` (`join_bits(..) as u32`). -/
def decode_uvec3 (morton : Nat) : Nat × Nat × Nat :=
  (join_bits morton % 2 ^ 32, join_bits (morton >>> 1) % 2 ^ 32,
    join_bits (morton >>> 2) % 2 ^ 32)

/-- `i32::unsigned_abs` (total on the whole `i32` range, including `i32::MIN`). -/
def unsigned_abs (x : Int) : Nat := x.natAbs

/-- Reinterpret a `u64` value as `i32` (`as i32`: truncate to 32 bits, then
two's-complement reading). -/
def u64_as_i32 (v : Nat) : Int :=
  if v % 2 ^ 32 < 2 ^ 31 then ((v % 2 ^ 32 : Nat) : Int)
  else ((v % 2 ^ 32 : Nat) : Int) - 2 ^ 32

/-- `impl MortonEncodable for IVec3` / `(i32, i32, i32)`: each component is
passed through `unsigned_abs` before splitting. -/
def encode_ivec3 (p : Int × Int × Int) : Nat :=
  split_bits (unsigned_abs p.1) ||| ((split_bits (unsigned_abs p.2.1) <<< 1) % 2 ^ 64) |||
    ((split_bits (unsigned_abs p.2.2) <<< 2) % 2 ^ 64)

/-- `impl MortonDecodable for IVec3` / `(i32, i32, i32)`
(`join_bits(..) as i32`). -/
def decode_ivec3 (morton : Nat) : Int × Int × Int :=
  (u64_as_i32 (join_bits morton), u64_as_i32 (join_bits (morton >>> 1)),
    u64_as_i32 (join_bits (morton >>> 2)))

/-! ## `bevycraft_world/src/spatial/node_64.rs` -/

def BRICK_SHIFT : Nat := 31

def BRICK_MASK : Nat := 0x80000000

def CHILD_MASK : Nat := 0x7FFFFFFF

/-- `Node64 { child_ptr: u32, child_mask: u64 }`. -/
structure Node64 where
  child_ptr : Nat
  child_mask : Nat
deriving DecidableEq, Repr

def Node64.MAX : Nat := 0x7FFFFFFF

def Node64.MAX_CHILDREN : Nat := 64

def Node64.EMPTY : Node64 := ⟨0, 0⟩

/-- `Node64::new(is_brick, child_ptr, child_mask)`: the source computes
`((is_brick as u32) << BRICK_SHIFT) & child_ptr` — an AND, transcribed
verbatim. -/
def Node64.new (is_brick : Bool) (child_ptr child_mask : Nat) : Node64 :=
  ⟨((if is_brick then 1 else 0) <<< BRICK_SHIFT) &&& (child_ptr % 2 ^ 32),
    child_mask % 2 ^ 64⟩

/-- `Node64::new_brick`. -/
def Node64.new_brick (child_ptr child_mask : Nat) : Node64 :=
  Node64.new true child_ptr child_mask

/-- `Node64::new_cluster`. -/
def Node64.new_cluster (child_ptr child_mask : Nat) : Node64 :=
  Node64.new false child_ptr child_mask

/-- `Node64::is_empty()`. -/
def Node64.is_empty (n : Node64) : Bool := n.child_ptr == 0 && n.child_mask == 0

/-- `Node64::is_brick()`. -/
def Node64.is_brick (n : Node64) : Bool := n.child_ptr &&& BRICK_MASK != 0

/-- `Node64::is_cluster()`. -/
def Node64.is_cluster (n : Node64) : Bool := n.child_ptr &&& BRICK_MASK == 0

/-- `Node64::set_child_ptr(child_ptr)`: keeps the tag bit, ORs the offset in. -/
def Node64.set_child_ptr (n : Node64) (child_ptr : Nat) : Node64 :=
  ⟨(n.child_ptr &&& BRICK_MASK) ||| (child_ptr % 2 ^ 32), n.child_mask⟩

/-- `Node64::get_child_ptr()`. -/
def Node64.get_child_ptr (n : Node64) : Nat := n.child_ptr &&& CHILD_MASK

/-- `Node64::set_child_bit(index, value)` (the source uses `&=`, transcribed
verbatim). -/
def Node64.set_child_bit (n : Node64) (index : Nat) (value : Bool) : Node64 :=
  ⟨n.child_ptr, n.child_mask &&& (((if value then 1 else 0) <<< index) % 2 ^ 64)⟩

/-- `Node64::has_children()`. -/
def Node64.has_children (n : Node64) : Bool := n.child_mask != 0

/-- `Node64::has_child_at(index)` (`index < 64` by `debug_assert!`). -/
def Node64.has_child_at (n : Node64) (index : Nat) : Bool :=
  n.child_mask &&& ((1 <<< index) % 2 ^ 64) != 0

/-! ## `bevycraft_world/src/spatial/tree_64.rs` -/

/-- `Tree64<T>` (the `NonZeroUsize` depth is a plain `Nat`; `Tree64::new`
panics on zero depth, which no claim exercises). -/
structure Tree64 (T : Type) where
  root : Node64
  node_pool : List Node64
  leaf_pool : List T
  depth : Nat

/-- `Tree64::new(depth)`. -/
def Tree64.new (T : Type) (depth : Nat) : Tree64 T :=
  ⟨Node64.EMPTY, [], [], depth⟩

/-- `Tree64::get_morton_idx(current_depth, morton)`. -/
def Tree64.get_morton_idx {T : Type} (t : Tree64 T) (current_depth morton : Nat) : Nat :=
  (morton >>> ((t.depth - current_depth) * 6)) &&& 0x3F

/-- `Tree64::get_cluster(node)`: `Some` of the 64 pool entries at the node's
offset when the node is a cluster with children. -/
def Tree64.get_cluster {T : Type} (t : Tree64 T) (node : Node64) : Option (List Node64) :=
  if node.is_cluster && node.has_children then
    some ((t.node_pool.drop node.get_child_ptr).take Node64.MAX_CHILDREN)
  else none

/-- `Tree64::get_brick(node)`. -/
def Tree64.get_brick {T : Type} (t : Tree64 T) (node : Node64) : Option (List T) :=
  if node.is_brick && node.has_children then
    some ((t.leaf_pool.drop node.get_child_ptr).take Node64.MAX_CHILDREN)
  else none

/-- The `for level in 1..self.depth()` loop of
`Tree64::set_at_depth_recursive`.  In the source the success arm of the
`if let` immediately `break`s (so at most one iteration runs and nothing is
ever written), and the fall-through is `todo!()`, modelled as `none`. -/
def Tree64.set_at_depth_loop {T : Type} (t : Tree64 T) (morton : Nat) :
    List Nat → Node64 → Option (Tree64 T)
  | [], _ => some t
  | level :: _rest, current =>
    let _cluster_idx := t.get_morton_idx level morton
    match t.get_cluster current with
    | some _cluster => some t
    | none => none

/-- `Tree64::set_at_depth_recursive(depth, pos, leaf)`: returns `some` of the
(unchanged) tree on normal return, `none` when `todo!()` panics.  `depth` and
`leaf` are faithfully unused (the source only `debug_assert!`s the former and
drops the latter). -/
def Tree64.set_at_depth_recursive {T : Type} (t : Tree64 T) (depth : Nat)
    (pos : Nat × Nat × Nat) (leaf : T) : Option (Tree64 T) :=
  t.set_at_depth_loop (encode_uvec3 pos) (List.range' 1 (t.depth - 1)) t.root

/-! ## `bevycraft_world/src/chunk/section.rs` -/

/-- `Section<T> { states, content, y }`. -/
structure Section (T : Type) where
  states : PackedArrayU32
  content : List T
  y : Nat

/-- `Section::new(y)`. -/
def Section.new (T : Type) (y : Nat) : Section T :=
  ⟨PackedArrayU32.zeroed, [], y⟩

/-- `Section::map_to_flat_index(pos) = x + z*16 + y*16*16` for a `(x, y, z)`
position. -/
def map_to_flat_index (pos : Nat × Nat × Nat) : Nat :=
  pos.1 + pos.2.2 * 16 + pos.2.1 * 16 * 16

/-- `Section::set(pos, state)`: allocates the 4096 index slots on first use,
appends `state` to the palette, stores the pre-push palette length at the
flattened position. -/
def Section.set {T : Type} (s : Section T) (pos : Nat × Nat × Nat) (state : T) : Section T :=
  let states := if s.states.is_empty then s.states.allocate 4096 else s.states
  let idx := s.content.length
  { states := states.set (map_to_flat_index pos) idx,
    content := s.content ++ [state],
    y := s.y }

/-- `Section::get(pos)`: first palette entry while the index array is empty,
otherwise palette lookup through the stored index. -/
def Section.get {T : Type} (s : Section T) (pos : Nat × Nat × Nat) : Option T :=
  if s.states.is_empty then s.content.head?
  else s.content[s.states.get (map_to_flat_index pos)]?

/-! ## Bit-level toolkit for `PackedArrayU32` -/

theorem and_seven (x : Nat) : x &&& 7 = x % 8 := by
  have h : (7 : Nat) = 2 ^ 3 - 1 := rfl
  rw [h, Nat.and_pow_two_sub_one_eq_mod]

theorem shiftRight_three (x : Nat) : x >>> 3 = x / 8 := by
  rw [Nat.shiftRight_eq_div_pow]

/-- `read_bits_from_buffer` returns exactly bits
`[bit_index, bit_index + n_bits)` of the buffer. -/
theorem read_bits_eq (B bi n : Nat) (hn : n ≤ 32) :
    read_bits_from_buffer B bi n = B >>> bi % 2 ^ n := by
  apply Nat.eq_of_testBit_eq
  intro j
  simp only [read_bits_from_buffer, mask, Nat.testBit_mod_two_pow, Nat.testBit_and,
    Nat.testBit_shiftRight, Nat.testBit_two_pow_sub_one]
  rcases Nat.lt_or_ge j n with hj | hj
  · have h32 : j < 32 := lt_of_lt_of_le hj hn
    have h64 : (bi &&& 7) + j < 64 := by rw [and_seven]; omega
    have hidx : 8 * (bi >>> 3) + ((bi &&& 7) + j) = bi + j := by
      rw [and_seven, shiftRight_three]; omega
    simp [hj, h32, h64, hidx]
  · simp [Nat.not_lt.mpr hj]

/-- Bits strictly below `bit_index` are untouched by `write_bits_to_buffer`. -/
theorem write_testBit_lt (B bi n v p : Nat) (hp : p < bi) :
    (write_bits_to_buffer B bi n v).testBit p = B.testBit p := by
  have h7 : bi &&& 7 = bi % 8 := and_seven bi
  have h3 : bi >>> 3 = bi / 8 := shiftRight_three bi
  simp only [write_bits_to_buffer, mask, h7, h3, Nat.testBit_or, Nat.testBit_and,
    Nat.testBit_xor, Nat.testBit_mod_two_pow, Nat.testBit_shiftLeft, Nat.testBit_shiftRight,
    Nat.testBit_two_pow_sub_one, ge_iff_le]
  rcases Nat.lt_or_ge p (8 * (bi / 8)) with h8 | h8
  · have c1 : ¬ (8 * (bi / 8) ≤ p) := by omega
    have c2 : ¬ (8 * (bi / 8) + 64 ≤ p) := by omega
    simp [h8, c1, c2]
  · have c0 : ¬ (p < 8 * (bi / 8)) := by omega
    have c1 : 8 * (bi / 8) ≤ p := h8
    have c2 : ¬ (8 * (bi / 8) + 64 ≤ p) := by omega
    have c3 : p - 8 * (bi / 8) < 64 := by omega
    have c4 : ¬ (bi % 8 ≤ p - 8 * (bi / 8)) := by omega
    have c5 : 8 * (bi / 8) + (p - 8 * (bi / 8)) = p := by omega
    simp [c0, c1, c2, c3, c4, c5]

/-- Bits `[bit_index, bit_index + n_bits)` after a write hold the bits of the
written `u32` value. -/
theorem write_testBit_mid (B bi n v p : Nat) (hn : bi % 8 + n ≤ 64) (h1 : bi ≤ p)
    (h2 : p < bi + n) :
    (write_bits_to_buffer B bi n v).testBit p = (v % 2 ^ 32).testBit (p - bi) := by
  have h7 : bi &&& 7 = bi % 8 := and_seven bi
  have h3 : bi >>> 3 = bi / 8 := shiftRight_three bi
  simp only [write_bits_to_buffer, mask, h7, h3, Nat.testBit_or, Nat.testBit_and,
    Nat.testBit_xor, Nat.testBit_mod_two_pow, Nat.testBit_shiftLeft, Nat.testBit_shiftRight,
    Nat.testBit_two_pow_sub_one, ge_iff_le]
  have c0 : ¬ (p < 8 * (bi / 8)) := by omega
  have c1 : 8 * (bi / 8) ≤ p := by omega
  have c2 : ¬ (8 * (bi / 8) + 64 ≤ p) := by omega
  have c3 : p - 8 * (bi / 8) < 64 := by omega
  have c4 : bi % 8 ≤ p - 8 * (bi / 8) := by omega
  have c5 : p - 8 * (bi / 8) - bi % 8 < n := by omega
  have c7 : p - 8 * (bi / 8) - bi % 8 = p - bi := by omega
  simp [c0, c1, c2, c3, c4, c5, c7]
  intro _ hcontr
  exact absurd hcontr (by omega)

/-- Read-after-write at the same field returns the value modulo the field
width. -/
theorem read_write (B bi n v : Nat) (hn : n ≤ 32) :
    read_bits_from_buffer (write_bits_to_buffer B bi n v) bi n = v % 2 ^ n := by
  rw [read_bits_eq _ _ _ hn]
  apply Nat.eq_of_testBit_eq
  intro j
  simp only [Nat.testBit_mod_two_pow, Nat.testBit_shiftRight]
  rcases Nat.lt_or_ge j n with hj | hj
  · rw [write_testBit_mid B bi n v (bi + j) (by omega) (by omega) (by omega)]
    have heq : bi + j - bi = j := by omega
    have h32 : j < 32 := lt_of_lt_of_le hj hn
    simp only [heq, Nat.testBit_mod_two_pow]
    simp [hj, h32]
  · simp [Nat.not_lt.mpr hj]

/-- A read entirely below a write is unaffected by it. -/
theorem read_of_write_lt (B bi n v bi' n' : Nat) (hn' : n' ≤ 32) (h : bi' + n' ≤ bi) :
    read_bits_from_buffer (write_bits_to_buffer B bi n v) bi' n'
      = read_bits_from_buffer B bi' n' := by
  rw [read_bits_eq _ _ _ hn', read_bits_eq _ _ _ hn']
  apply Nat.eq_of_testBit_eq
  intro j
  simp only [Nat.testBit_mod_two_pow, Nat.testBit_shiftRight]
  rcases Nat.lt_or_ge j n' with hj | hj
  · rw [write_testBit_lt B bi n v (bi' + j) (by omega)]
  · simp [Nat.not_lt.mpr hj]

/-- Any read is below the field width. -/
theorem read_lt (B bi n : Nat) : read_bits_from_buffer B bi n < 2 ^ n := by
  have h : read_bits_from_buffer B bi n ≤ 2 ^ n - 1 := by
    unfold read_bits_from_buffer mask
    exact le_trans (Nat.mod_le _ _) Nat.and_le_right
  have h2 : (0 : Nat) < 2 ^ n := Nat.two_pow_pos n
  omega

/-- After the repacking loop, element `i` holds its old value reduced
modulo `2 ^ new_bits`. -/
theorem resize_copy_get (B ow nw : Nat) (hnw : nw ≤ 32) (sz : Nat) :
    ∀ i, i < sz → read_bits_from_buffer (resize_copy B ow nw sz) (i * nw) nw
      = read_bits_from_buffer B (i * ow) ow % 2 ^ nw := by
  induction sz with
  | zero => intro i h; omega
  | succ sz ih =>
    intro i h
    rcases Nat.lt_or_ge i sz with h' | h'
    · have hle : i * nw + nw ≤ sz * nw := by
        have h1 : (i + 1) * nw ≤ sz * nw := Nat.mul_le_mul_right nw (by omega)
        have h2 : (i + 1) * nw = i * nw + nw := Nat.succ_mul i nw
        omega
      calc read_bits_from_buffer (resize_copy B ow nw (sz + 1)) (i * nw) nw
          = read_bits_from_buffer (resize_copy B ow nw sz) (i * nw) nw := by
            rw [resize_copy]
            exact read_of_write_lt _ _ _ _ _ _ hnw hle
        _ = read_bits_from_buffer B (i * ow) ow % 2 ^ nw := ih i h'
    · have hi : i = sz := by omega
      subst hi
      rw [resize_copy]
      exact read_write _ _ _ _ hnw

/-- The recorded width after `resize_bits` is
`max (old + factor) 0` as a natural number, in both branches. -/
theorem resize_bits_bit_length (a : PackedArrayU32) (f : Int) :
    (a.resize_bits f).bit_length = (max ((a.bit_length : Int) + f) 0).toNat := by
  unfold PackedArrayU32.resize_bits
  split <;> rfl

/-! ## Claims about `PackedArrayU32` -/

/-- C1: for every `PackedArrayU32` with bit width `w ∈ [1,32]`, every index
`i < count` and every value `v < 2^w`, `set(i, v)` followed by `get(i)`
returns `v`. -/
theorem C1_packed_set_get_roundtrip (a : PackedArrayU32) (i v : Nat)
    (hw1 : 1 ≤ a.bit_length) (hw2 : a.bit_length ≤ 32) (hi : i < a.len)
    (hv : v < 2 ^ a.bit_length) : (a.set i v).get i = v := by
  show read_bits_from_buffer
      (write_bits_to_buffer a.buffer (a.bit_length * i) a.bit_length v)
      (a.bit_length * i) a.bit_length = v
  rw [read_write _ _ _ _ hw2]
  exact Nat.mod_eq_of_lt hv

/-- Witness for C1: a 10-element array at width 4, `set(3, 9); get(3) == 9`. -/
theorem C1_witness :
    1 ≤ (PackedArrayU32.with_bit_length 10 4).bit_length ∧
    (PackedArrayU32.with_bit_length 10 4).bit_length ≤ 32 ∧
    3 < (PackedArrayU32.with_bit_length 10 4).len ∧
    9 < 2 ^ (PackedArrayU32.with_bit_length 10 4).bit_length ∧
    ((PackedArrayU32.with_bit_length 10 4).set 3 9).get 3 = 9 :=
  ⟨by decide, by decide, by decide, by decide,
    C1_packed_set_get_roundtrip (PackedArrayU32.with_bit_length 10 4) 3 9
      (by decide) (by decide) (by decide) (by decide)⟩

/-- C4: `resize_bits` (the engine of `grow_bits_by` / width changes) maps
every element to its old value modulo `2 ^ new_width`; in particular growing
to a width at least the old one preserves every element exactly, and no
element ends up with any other value. -/
theorem C4_resize_bits_values (a : PackedArrayU32) (f : Int) (i : Nat)
    (hw : a.bit_length ≤ 32) (hi : i < a.len)
    (hnw1 : 1 ≤ (a.resize_bits f).bit_length)
    (hnw2 : (a.resize_bits f).bit_length ≤ 32) :
    (a.resize_bits f).get i = a.get i % 2 ^ (a.resize_bits f).bit_length ∧
    (a.bit_length ≤ (a.resize_bits f).bit_length → (a.resize_bits f).get i = a.get i) := by
  have hpos : 0 < a.size := Nat.lt_of_le_of_lt (Nat.zero_le i) hi
  have hb : (a.resize_bits f).bit_length = (max ((a.bit_length : Int) + f) 0).toNat :=
    resize_bits_bit_length a f
  set nw := (max ((a.bit_length : Int) + f) 0).toNat with hnwdef
  have hget : (a.resize_bits f).get i
      = read_bits_from_buffer (resize_copy a.buffer a.bit_length nw a.size) (nw * i) nw := by
    unfold PackedArrayU32.get PackedArrayU32.resize_bits
    simp only [hpos, if_pos]
    rfl
  have key : (a.resize_bits f).get i = a.get i % 2 ^ nw := by
    rw [hget, Nat.mul_comm nw i,
      resize_copy_get a.buffer a.bit_length nw (hb ▸ hnw2) a.size i hi]
    unfold PackedArrayU32.get
    rw [Nat.mul_comm]
  refine ⟨by rw [hb]; exact key, fun hle => ?_⟩
  rw [key]
  apply Nat.mod_eq_of_lt
  have h1 : a.get i < 2 ^ a.bit_length := read_lt a.buffer (a.bit_length * i) a.bit_length
  exact Nat.lt_of_lt_of_le h1 (Nat.pow_le_pow_right (by omega) (hb ▸ hle))

/-- Witness for C4: a width-4 array `[_, 9, _]` shrunk to width 1 stores
`9 % 2 = 1` at slot 1, and grown to width 8 keeps its 9. -/
theorem C4_witness :
    ((((PackedArrayU32.with_bit_length 3 4).set 1 9).resize_bits (-3)).get 1
        = ((PackedArrayU32.with_bit_length 3 4).set 1 9).get 1
          % 2 ^ ((((PackedArrayU32.with_bit_length 3 4).set 1 9).resize_bits (-3)).bit_length) ∧
      (((PackedArrayU32.with_bit_length 3 4).set 1 9).bit_length
          ≤ (((PackedArrayU32.with_bit_length 3 4).set 1 9).resize_bits (-3)).bit_length →
        ((((PackedArrayU32.with_bit_length 3 4).set 1 9).resize_bits (-3)).get 1
          = ((PackedArrayU32.with_bit_length 3 4).set 1 9).get 1))) ∧
    ((((PackedArrayU32.with_bit_length 3 4).set 1 9).resize_bits 4).get 1
        = ((PackedArrayU32.with_bit_length 3 4).set 1 9).get 1
          % 2 ^ ((((PackedArrayU32.with_bit_length 3 4).set 1 9).resize_bits 4).bit_length) ∧
      (((PackedArrayU32.with_bit_length 3 4).set 1 9).bit_length
          ≤ (((PackedArrayU32.with_bit_length 3 4).set 1 9).resize_bits 4).bit_length →
        ((((PackedArrayU32.with_bit_length 3 4).set 1 9).resize_bits 4).get 1
          = ((PackedArrayU32.with_bit_length 3 4).set 1 9).get 1))) :=
  ⟨C4_resize_bits_values ((PackedArrayU32.with_bit_length 3 4).set 1 9) (-3) 1
      (by decide) (by decide) (by decide) (by decide),
    C4_resize_bits_values ((PackedArrayU32.with_bit_length 3 4).set 1 9) 4 1
      (by decide) (by decide) (by decide) (by decide)⟩

/-- C5 (code bug): `allocate` never assigns `self.size`, so an array that was
empty stays empty after `allocate(5)`: `is_empty()` is still true, the length
is 0 (not 5), and the debug assertion of a subsequent `deallocate` fires. -/
theorem C5_allocate_never_sizes :
    (PackedArrayU32.zeroed.allocate 5).is_empty = true ∧
    (PackedArrayU32.zeroed.allocate 5).len = 0 ∧
    (PackedArrayU32.zeroed.allocate 5).deallocate_checked = none := by decide

/-- C8 counterexample: on a fresh array (width 1) `grow_bits_by_powf2` makes
the recorded width 3, not `2 * 1 = 2` as the claim states. -/
theorem C8_counterexample :
    ¬ (PackedArrayU32.zeroed.grow_bits_by_powf2.bit_length
        = 2 * PackedArrayU32.zeroed.bit_length) := by decide

/-- C8 amended: `grow_bits_by_powf2` resizes by `1 << w = 2 ^ w`, so the
recorded width becomes `w + 2 ^ w` (no clamping is performed; the bounds are
only `debug_assert!`ed inside `resize_bits`). -/
theorem C8_amended_width (a : PackedArrayU32) :
    (a.grow_bits_by_powf2).bit_length = a.bit_length + 2 ^ a.bit_length := by
  unfold PackedArrayU32.grow_bits_by_powf2
  rw [resize_bits_bit_length]
  have h0 : (0 : Int) ≤ (a.bit_length : Int) + 2 ^ a.bit_length := by positivity
  rw [max_eq_left h0]
  have hcast : (a.bit_length : Int) + 2 ^ a.bit_length
      = ((a.bit_length + 2 ^ a.bit_length : Nat) : Int) := by push_cast; ring
  rw [hcast, Int.toNat_natCast]

/-- C9 counterexample: with a 10-element width-4 array holding 9 at slot 3,
the debug-checked `set(3, 16)` does not fail (the only debug assertion is the
index bound) and it does change the stored buffer. -/
theorem C9_counterexample :
    ((PackedArrayU32.with_bit_length 10 4).set 3 9).set_checked 3 16 ≠ none ∧
    ((PackedArrayU32.with_bit_length 10 4).set 3 9).set 3 16
      ≠ (PackedArrayU32.with_bit_length 10 4).set 3 9 := by decide

/-- C9 amended: `set` has no `ValueOverflow` check even in a debug build:
`set(3, 9); get(3) == 9` holds, and `set(3, 16)` succeeds, leaves
`16 % 2^4 = 0` in slot 3, and spills bit 4 of the value into the adjacent
element (slot 4 reads back 1). -/
theorem C9_amended_no_overflow_check :
    (PackedArrayU32.with_bit_length 10 4).set_checked 3 9
      = some ((PackedArrayU32.with_bit_length 10 4).set 3 9) ∧
    ((PackedArrayU32.with_bit_length 10 4).set 3 9).get 3 = 9 ∧
    ((PackedArrayU32.with_bit_length 10 4).set 3 9).set_checked 3 16
      = some (((PackedArrayU32.with_bit_length 10 4).set 3 9).set 3 16) ∧
    (((PackedArrayU32.with_bit_length 10 4).set 3 9).set 3 16).get 3 = 0 ∧
    (((PackedArrayU32.with_bit_length 10 4).set 3 9).set 3 16).get 4 = 1 := by decide

/-! ## Claims about `Node64`, `Tree64`, `Section` -/

/-- C3 (code bug): `Node64::new` computes
`((is_brick as u32) << BRICK_SHIFT) & child_ptr` (an AND where the
surrounding code — `set_child_ptr`, `get_child_ptr` — uses OR/mask packing),
so the offset is discarded and the brick tag is never set:
`cluster(5, 0b101)` answers the mask queries as claimed but
`get_child_ptr()` is 0 instead of 5, and `brick(5, 0b101)` has
`is_brick() == false`. -/
theorem C3_node64_constructors_drop_offset :
    (Node64.new_cluster 5 5).is_cluster = true ∧
    (Node64.new_cluster 5 5).has_child_at 0 = true ∧
    (Node64.new_cluster 5 5).has_child_at 1 = false ∧
    (Node64.new_cluster 5 5).has_child_at 2 = true ∧
    (Node64.new_cluster 5 5).get_child_ptr = 0 ∧
    (Node64.new_brick 5 5).is_brick = false ∧
    (Node64.new_brick 5 5).get_child_ptr = 0 := by decide

/-- C6 (code bug): `Tree64::set_at_depth_recursive` never stores anything.
On a fresh depth-2 tree the very first descent step finds no cluster and hits
`todo!()` (modelled as `none`); on a depth-1 tree the loop body never runs
and the tree is returned unchanged, with the leaf value dropped. -/
theorem C6_set_at_depth_unimplemented :
    (Tree64.new Nat 2).set_at_depth_recursive 2 (0, 0, 0) 7 = none ∧
    (Tree64.new Nat 1).set_at_depth_recursive 1 (0, 0, 0) 7 = some (Tree64.new Nat 1) :=
  ⟨rfl, rfl⟩

/-- C7: the `Section` scenario of the spec: a fresh section answers absence;
after `set((1,2,3), 7)` both `get((1,2,3))` and `get((0,0,0))` answer
`some 7`. (In this model the mechanism is the `allocate` size bug: the index
array still reports empty, so `get` falls back to the first palette entry —
the observable values are exactly the claimed ones.) -/
theorem C7_section_scenario :
    (Section.new Nat 0).get (0, 0, 0) = none ∧
    ((Section.new Nat 0).set (1, 2, 3) 7).get (1, 2, 3) = some 7 ∧
    ((Section.new Nat 0).set (1, 2, 3) 7).get (0, 0, 0) = some 7 :=
  ⟨rfl, rfl, rfl⟩

/-! ## Claims about the Morton codec -/

/-- Bit `j` of `split_bits x`: bit `j / 3` of `x` when `j` is a multiple of 3
(up to bit 60), otherwise 0. -/
theorem split_bits_testBit (x j : Nat) :
    (split_bits x).testBit j = (decide (j % 3 = 0 ∧ j ≤ 60) && x.testBit (j / 3)) := by
  rcases Nat.lt_or_ge j 61 with h | h
  · interval_cases j <;>
      (simp only [split_bits, Nat.testBit_and, Nat.testBit_or, Nat.testBit_shiftLeft,
        Nat.testBit_shiftRight, Nat.testBit_mod_two_pow]
       norm_num [Nat.testBit_to_div_mod])
  · have hlt : split_bits x < 2 ^ j := by
      have h1 : split_bits x ≤ 0x1249249249249249 := by
        unfold split_bits; exact Nat.and_le_right
      have h2 : (0x1249249249249249 : Nat) < 2 ^ 61 := by norm_num
      exact Nat.lt_of_le_of_lt h1 (Nat.lt_of_lt_of_le h2 (Nat.pow_le_pow_right (by norm_num) h))
    rw [Nat.testBit_lt_two_pow hlt]
    symm
    rw [Bool.and_eq_false_iff]
    left
    rw [decide_eq_false_iff_not]
    omega

/-- `join_bits` inverts `split_bits` modulo the 21-bit input mask. -/
theorem join_bits_split_bits (x : Nat) : join_bits (split_bits x) = x % 2 ^ 21 := by
  apply Nat.eq_of_testBit_eq
  intro j
  rcases Nat.lt_or_ge j 21 with h | h
  · interval_cases j <;>
      (simp only [join_bits, Nat.testBit_and, Nat.testBit_xor,
        Nat.testBit_shiftRight, Nat.testBit_mod_two_pow, split_bits_testBit]
       norm_num [Nat.testBit_to_div_mod])
  · have hlt : join_bits (split_bits x) < 2 ^ j := by
      have h1 : join_bits (split_bits x) ≤ 0x1fffff := by
        unfold join_bits; exact Nat.and_le_right
      have h2 : (0x1fffff : Nat) < 2 ^ 21 := by norm_num
      exact Nat.lt_of_le_of_lt h1 (Nat.lt_of_lt_of_le h2 (Nat.pow_le_pow_right (by norm_num) h))
    rw [Nat.testBit_lt_two_pow hlt]
    symm
    simp only [Nat.testBit_mod_two_pow]
    simp [Nat.not_lt.mpr h]

/-- Bit pattern of the axis mask `0x1249249249249249`: multiples of 3 up to 60. -/
theorem testBit_M (j : Nat) :
    (0x1249249249249249 : Nat).testBit j = decide (j % 3 = 0 ∧ j ≤ 60) := by
  rcases Nat.lt_or_ge j 61 with h | h
  · interval_cases j <;> decide
  · have hlt : (0x1249249249249249 : Nat) < 2 ^ j := by
      have h2 : (0x1249249249249249 : Nat) < 2 ^ 61 := by norm_num
      exact Nat.lt_of_lt_of_le h2 (Nat.pow_le_pow_right (by norm_num) h)
    rw [Nat.testBit_lt_two_pow hlt]
    symm
    rw [decide_eq_false_iff_not]
    omega

theorem split_bits_and_M (x : Nat) :
    split_bits x &&& 0x1249249249249249 = split_bits x := by
  apply Nat.eq_of_testBit_eq
  intro j
  simp only [Nat.testBit_and, split_bits_testBit, testBit_M]
  by_cases h : j % 3 = 0 ∧ j ≤ 60
  · simp [h]
  · simp [h]

theorem split_shl1_and_M (y : Nat) :
    (split_bits y <<< 1) &&& 0x1249249249249249 = 0 := by
  apply Nat.eq_of_testBit_eq
  intro j
  simp only [Nat.testBit_and, Nat.testBit_shiftLeft, split_bits_testBit, testBit_M,
    Nat.zero_testBit, ge_iff_le]
  by_cases hM : j % 3 = 0 ∧ j ≤ 60
  · by_cases h1 : 1 ≤ j
    · have hno : ¬ ((j - 1) % 3 = 0 ∧ j - 1 ≤ 60) := by omega
      simp [hno]
      intros
      omega
    · simp [h1]
  · simp [hM]

theorem split_shl2_and_M (z : Nat) :
    (split_bits z <<< 2) &&& 0x1249249249249249 = 0 := by
  apply Nat.eq_of_testBit_eq
  intro j
  simp only [Nat.testBit_and, Nat.testBit_shiftLeft, split_bits_testBit, testBit_M,
    Nat.zero_testBit, ge_iff_le]
  by_cases hM : j % 3 = 0 ∧ j ≤ 60
  · by_cases h2 : 2 ≤ j
    · have hno : ¬ ((j - 2) % 3 = 0 ∧ j - 2 ≤ 60) := by omega
      simp [hno]
      intros
      omega
    · simp [h2]
  · simp [hM]

theorem split_shr1_and_M (x : Nat) :
    (split_bits x >>> 1) &&& 0x1249249249249249 = 0 := by
  apply Nat.eq_of_testBit_eq
  intro j
  simp only [Nat.testBit_and, Nat.testBit_shiftRight, split_bits_testBit, testBit_M,
    Nat.zero_testBit]
  by_cases hM : j % 3 = 0 ∧ j ≤ 60
  · have hno : ¬ ((1 + j) % 3 = 0 ∧ 1 + j ≤ 60) := by omega
    simp [hno]
  · simp [hM]

theorem split_shr2_and_M (x : Nat) :
    (split_bits x >>> 2) &&& 0x1249249249249249 = 0 := by
  apply Nat.eq_of_testBit_eq
  intro j
  simp only [Nat.testBit_and, Nat.testBit_shiftRight, split_bits_testBit, testBit_M,
    Nat.zero_testBit]
  by_cases hM : j % 3 = 0 ∧ j ≤ 60
  · have hno : ¬ ((2 + j) % 3 = 0 ∧ 2 + j ≤ 60) := by omega
    simp [hno]
  · simp [hM]

theorem or_shiftRight (a b k : Nat) : (a ||| b) >>> k = (a >>> k) ||| (b >>> k) := by
  apply Nat.eq_of_testBit_eq
  intro j
  simp

theorem split_le (x : Nat) : split_bits x ≤ 0x1249249249249249 := by
  unfold split_bits
  exact Nat.and_le_right

theorem split_shl1_mod (y : Nat) :
    (split_bits y <<< 1) % 2 ^ 64 = split_bits y <<< 1 := by
  apply Nat.mod_eq_of_lt
  have h := split_le y
  rw [Nat.shiftLeft_eq]
  have h2 : (2 : Nat) ^ 1 = 2 := rfl
  have h64 : (2 : Nat) ^ 64 = 18446744073709551616 := by norm_num
  omega

theorem split_shl2_mod (z : Nat) :
    (split_bits z <<< 2) % 2 ^ 64 = split_bits z <<< 2 := by
  apply Nat.mod_eq_of_lt
  have h := split_le z
  rw [Nat.shiftLeft_eq]
  have h2 : (2 : Nat) ^ 2 = 4 := rfl
  have h64 : (2 : Nat) ^ 64 = 18446744073709551616 := by norm_num
  omega

/-- `join_bits` only looks at its argument through the first mask. -/
theorem join_bits_congr {a b : Nat}
    (h : a &&& 0x1249249249249249 = b &&& 0x1249249249249249) :
    join_bits a = join_bits b := by
  unfold join_bits
  rw [h]

theorem join_encode_fst (x y z : Nat) :
    join_bits (encode_uvec3 (x, y, z)) = x % 2 ^ 21 := by
  have hcong : encode_uvec3 (x, y, z) &&& 0x1249249249249249
      = split_bits x &&& 0x1249249249249249 := by
    show (split_bits x ||| (split_bits y <<< 1) % 2 ^ 64 ||| (split_bits z <<< 2) % 2 ^ 64)
        &&& 0x1249249249249249 = split_bits x &&& 0x1249249249249249
    rw [split_shl1_mod, split_shl2_mod, Nat.and_distrib_right, Nat.and_distrib_right,
      split_shl1_and_M, split_shl2_and_M]
    simp
  rw [join_bits_congr hcong, join_bits_split_bits]

theorem shl2_shr1 (z : Nat) : (z <<< 2) >>> 1 = z <<< 1 := by
  rw [Nat.shiftLeft_eq, Nat.shiftLeft_eq, Nat.shiftRight_eq_div_pow]
  have h2 : (2 : Nat) ^ 2 = 4 := rfl
  have h1 : (2 : Nat) ^ 1 = 2 := rfl
  omega

theorem shl1_shr2 (y : Nat) : (y <<< 1) >>> 2 = y >>> 1 := by
  rw [Nat.shiftLeft_eq, Nat.shiftRight_eq_div_pow, Nat.shiftRight_eq_div_pow]
  have h2 : (2 : Nat) ^ 2 = 4 := rfl
  have h1 : (2 : Nat) ^ 1 = 2 := rfl
  omega

theorem shl2_shr2 (z : Nat) : (z <<< 2) >>> 2 = z := by
  rw [Nat.shiftLeft_eq, Nat.shiftRight_eq_div_pow]
  have h2 : (2 : Nat) ^ 2 = 4 := rfl
  omega

theorem join_encode_snd (x y z : Nat) :
    join_bits (encode_uvec3 (x, y, z) >>> 1) = y % 2 ^ 21 := by
  have hstep : encode_uvec3 (x, y, z) >>> 1
      = split_bits x >>> 1 ||| split_bits y ||| split_bits z <<< 1 := by
    show (split_bits x ||| (split_bits y <<< 1) % 2 ^ 64 ||| (split_bits z <<< 2) % 2 ^ 64) >>> 1
        = _
    rw [split_shl1_mod, split_shl2_mod, or_shiftRight, or_shiftRight,
      Nat.shiftLeft_shiftRight, shl2_shr1]
  have hcong : encode_uvec3 (x, y, z) >>> 1 &&& 0x1249249249249249
      = split_bits y &&& 0x1249249249249249 := by
    rw [hstep, Nat.and_distrib_right, Nat.and_distrib_right,
      split_shr1_and_M, split_shl1_and_M]
    simp
  rw [join_bits_congr hcong, join_bits_split_bits]

theorem join_encode_trd (x y z : Nat) :
    join_bits (encode_uvec3 (x, y, z) >>> 2) = z % 2 ^ 21 := by
  have hstep : encode_uvec3 (x, y, z) >>> 2
      = split_bits x >>> 2 ||| split_bits y >>> 1 ||| split_bits z := by
    show (split_bits x ||| (split_bits y <<< 1) % 2 ^ 64 ||| (split_bits z <<< 2) % 2 ^ 64) >>> 2
        = _
    rw [split_shl1_mod, split_shl2_mod, or_shiftRight, or_shiftRight,
      shl1_shr2, shl2_shr2]
  have hcong : encode_uvec3 (x, y, z) >>> 2 &&& 0x1249249249249249
      = split_bits z &&& 0x1249249249249249 := by
    rw [hstep, Nat.and_distrib_right, Nat.and_distrib_right,
      split_shr2_and_M, split_shr1_and_M]
    simp [split_bits_and_M]
  rw [join_bits_congr hcong, join_bits_split_bits]

/-- C2: Morton decoding inverts Morton encoding on all coordinate triples
with components below `2^21`. -/
theorem C2_morton_roundtrip (x y z : Nat) (hx : x < 2 ^ 21) (hy : y < 2 ^ 21) (hz : z < 2 ^ 21) :
    decode_uvec3 (encode_uvec3 (x, y, z)) = (x, y, z) := by
  unfold decode_uvec3
  rw [join_encode_fst, join_encode_snd, join_encode_trd,
    Nat.mod_eq_of_lt hx, Nat.mod_eq_of_lt hy, Nat.mod_eq_of_lt hz,
    Nat.mod_eq_of_lt (Nat.lt_trans hx (by norm_num)),
    Nat.mod_eq_of_lt (Nat.lt_trans hy (by norm_num)),
    Nat.mod_eq_of_lt (Nat.lt_trans hz (by norm_num))]

theorem u64_as_i32_small (v : Nat) (h : v < 2 ^ 31) : u64_as_i32 v = (v : Int) := by
  unfold u64_as_i32
  have h32 : v % 2 ^ 32 = v := Nat.mod_eq_of_lt (Nat.lt_trans h (by norm_num))
  rw [h32, if_pos h]

theorem encode_ivec3_eq (p : Int × Int × Int) :
    encode_ivec3 p = encode_uvec3 (unsigned_abs p.1, unsigned_abs p.2.1, unsigned_abs p.2.2) :=
  rfl

/-- C10: signed Morton encoding goes through `unsigned_abs`, so encoding a
signed triple equals encoding its componentwise absolute values, the
decode-of-encode round trip returns the componentwise absolute values, and it
is the identity exactly when every component equals its absolute value. -/
theorem C10_signed_morton_abs (x y z : Int) (hx : unsigned_abs x < 2 ^ 21)
    (hy : unsigned_abs y < 2 ^ 21) (hz : unsigned_abs z < 2 ^ 21) :
    (∀ a b c : Int, encode_ivec3 (a, b, c) = encode_ivec3 (|a|, |b|, |c|)) ∧
    decode_ivec3 (encode_ivec3 (x, y, z))
      = ((unsigned_abs x : Int), (unsigned_abs y : Int), (unsigned_abs z : Int)) ∧
    (decode_ivec3 (encode_ivec3 (x, y, z)) = (x, y, z) ↔ x = |x| ∧ y = |y| ∧ z = |z|) := by
  have habs : ∀ a b c : Int, encode_ivec3 (a, b, c) = encode_ivec3 (|a|, |b|, |c|) := by
    intro a b c
    simp [encode_ivec3, unsigned_abs, Int.natAbs_abs]
  have hdec : decode_ivec3 (encode_ivec3 (x, y, z))
      = ((unsigned_abs x : Int), (unsigned_abs y : Int), (unsigned_abs z : Int)) := by
    rw [encode_ivec3_eq]
    unfold decode_ivec3
    rw [join_encode_fst, join_encode_snd, join_encode_trd,
      Nat.mod_eq_of_lt hx, Nat.mod_eq_of_lt hy, Nat.mod_eq_of_lt hz,
      u64_as_i32_small _ (Nat.lt_trans hx (by norm_num)),
      u64_as_i32_small _ (Nat.lt_trans hy (by norm_num)),
      u64_as_i32_small _ (Nat.lt_trans hz (by norm_num))]
  refine ⟨habs, hdec, ?_⟩
  rw [hdec]
  have hcomp : ∀ a : Int, ((unsigned_abs a : Int) = a) ↔ a = |a| := by
    intro a
    show ((a.natAbs : Int) = a) ↔ a = |a|
    rw [Int.abs_eq_natAbs]
    exact eq_comm
  constructor
  · intro h
    rw [Prod.ext_iff, Prod.ext_iff] at h
    obtain ⟨h1, h2, h3⟩ := h
    exact ⟨(hcomp x).mp h1, (hcomp y).mp h2, (hcomp z).mp h3⟩
  · rintro ⟨h1, h2, h3⟩
    rw [Prod.ext_iff, Prod.ext_iff]
    exact ⟨(hcomp x).mpr h1, (hcomp y).mpr h2, (hcomp z).mpr h3⟩

/-- Witness for C2 at `(5, 70000, 2097151)`. -/
theorem C2_witness :
    (5 : Nat) < 2 ^ 21 ∧ (70000 : Nat) < 2 ^ 21 ∧ (2097151 : Nat) < 2 ^ 21 ∧
    decode_uvec3 (encode_uvec3 (5, 70000, 2097151)) = (5, 70000, 2097151) :=
  ⟨by decide, by decide, by decide,
    C2_morton_roundtrip 5 70000 2097151 (by decide) (by decide) (by decide)⟩

/-- Witness for C10 at `(-3, 5, -2)`: the round trip returns `(3, 5, 2)`,
which differs from the input because two components are negative. -/
theorem C10_witness :
    unsigned_abs (-3) < 2 ^ 21 ∧ unsigned_abs 5 < 2 ^ 21 ∧ unsigned_abs (-2) < 2 ^ 21 ∧
    ((∀ a b c : Int, encode_ivec3 (a, b, c) = encode_ivec3 (|a|, |b|, |c|)) ∧
      decode_ivec3 (encode_ivec3 (-3, 5, -2))
        = ((unsigned_abs (-3) : Int), (unsigned_abs 5 : Int), (unsigned_abs (-2) : Int)) ∧
      (decode_ivec3 (encode_ivec3 (-3, 5, -2)) = (-3, 5, -2) ↔
        (-3 : Int) = |(-3 : Int)| ∧ (5 : Int) = |(5 : Int)| ∧ (-2 : Int) = |(-2 : Int)|)) :=
  ⟨by decide, by decide, by decide,
    C10_signed_morton_abs (-3) 5 (-2) (by decide) (by decide) (by decide)⟩

end Bevycraft
